import Mathlib

/-!
Shallow embedding of the rendering pipeline of `src/src/App.jsx` ("frosted
glass strips" canvas toy).  JavaScript numbers are modelled as exact
rationals (`ℚ`); the one place where double-precision rounding is the very
subject of a claim (the gradient-stop accumulation loop) is modelled with an
explicit IEEE-754 binary64 round-to-nearest-even function on `ℚ`.
JavaScript exceptions (property access on `null`) are modelled with
`Except Unit`; the JavaScript value `NaN` arising from `0/0` is modelled with
an explicit `JsNum` type.
-/

set_option maxRecDepth 10000

/- The Batteries rational-number operations are `@[irreducible]`, which
blocks `decide`'s evaluator (the kernel itself ignores reducibility); make
them unfoldable for the evaluations in this file. -/
attribute [local semireducible] Rat.add Rat.mul Rat.inv Rat.sub

/-- An `{r,g,b}` triple as produced by `hexToRgb` (App.jsx lines 59-66). -/
structure Rgb where
  r : ℕ
  g : ℕ
  b : ℕ
deriving DecidableEq, Repr

instance {ε α : Type} [DecidableEq ε] [DecidableEq α] :
    DecidableEq (Except ε α) := fun x y =>
  match x, y with
  | Except.ok a, Except.ok b =>
    if h : a = b then isTrue (by rw [h]) else isFalse (by simp [h])
  | Except.error a, Except.error b =>
    if h : a = b then isTrue (by rw [h]) else isFalse (by simp [h])
  | Except.ok _, Except.error _ => isFalse (by simp)
  | Except.error _, Except.ok _ => isFalse (by simp)

/-- The character class `[a-f\d]` of the regex in `hexToRgb`, with the `i`
(case-insensitive) flag: the three code-point ranges for the decimal digits
and the letters a-f in either case. -/
def hexDigitChars : List Char :=
  (List.range 10).map (fun n => Char.ofNat (48 + n)) ++
  (List.range 6).map (fun n => Char.ofNat (97 + n)) ++
  (List.range 6).map (fun n => Char.ofNat (65 + n))

/-- Membership in the regex character class `[a-f\d]` (case-insensitive). -/
def isHexDigit (c : Char) : Bool := decide (c ∈ hexDigitChars)

/-- Value of a single hex digit, as `parseInt(_, 16)` assigns it
(case-insensitive). Only meaningful on members of `hexDigitChars`. -/
def hexVal (c : Char) : ℕ :=
  if c.toNat ≤ 57 then c.toNat - 48
  else if c.toNat ≤ 70 then c.toNat - 55
  else c.toNat - 87

/-- The optional leading `#` of the regex `^#?...` in `hexToRgb`. -/
def dropHash (cs : List Char) : List Char :=
  match cs with
  | '#' :: rest => rest
  | _ => cs

/-- `hexToRgb` (App.jsx lines 59-66): matches
`/^#?([a-f\d]{2})([a-f\d]{2})([a-f\d]{2})$/i` and converts each captured
pair with `parseInt(_, 16)`; returns `null` (here `none`) when the regex
does not match. -/
def hexToRgb (hex : String) : Option Rgb :=
  match dropHash hex.data with
  | [c1, c2, c3, c4, c5, c6] =>
    if isHexDigit c1 && isHexDigit c2 && isHexDigit c3 &&
       isHexDigit c4 && isHexDigit c5 && isHexDigit c6 then
      some ⟨16 * hexVal c1 + hexVal c2,
            16 * hexVal c3 + hexVal c4,
            16 * hexVal c5 + hexVal c6⟩
    else none
  | _ => none

/-- Case normalization (ASCII lower-casing) of a character, as used to state
"equal up to case". -/
def lowerChar (c : Char) : Char :=
  if 65 ≤ c.toNat ∧ c.toNat ≤ 90 then Char.ofNat (c.toNat + 32) else c

/-- Case normalization of a string. -/
def lowerStr (s : String) : String := String.mk (s.data.map lowerChar)

/-- `toHex` (App.jsx lines 11-14): `n.toString(16)` (lowercase hex digits,
no leading zeros) zero-padded on the left to at least two digits. -/
def toHex (n : ℕ) : String :=
  let hex := String.mk (Nat.toDigits 16 n)
  if hex.length = 1 then "0" ++ hex else hex

/-- The channel-to-hex conversion applied to the three channels of a color
(App.jsx line 16 applies `toHex` to each of r, g, b); the inverse of
`hexToRgb` in the sense of the spec's "rgbToHex". -/
def rgbToHex (c : Rgb) : String := toHex c.r ++ toHex c.g ++ toHex c.b

/-- The pattern of `hexToRgb`'s regex, stated on its own: an optional
leading `#` followed by exactly 6 hex digits grouped in pairs. -/
def specValidHex (s : String) : Bool :=
  match dropHash s.data with
  | [c1, c2, c3, c4, c5, c6] =>
    isHexDigit c1 && isHexDigit c2 && isHexDigit c3 &&
    isHexDigit c4 && isHexDigit c5 && isHexDigit c6
  | _ => false

/-- `lerp` (App.jsx lines 54-56): `start * (1 - t) + end * t`. -/
def lerp (start e t : ℚ) : ℚ := start * (1 - t) + e * t

/-- `mapToColor` (App.jsx lines 69-89).  Property access on `null`
(`start.r` when `hexToRgb` returned `null`) throws in JavaScript; this is
the `Except.error ()` case.  Note that each branch only dereferences the two
colors it interpolates between. -/
def mapToColor (value : ℚ) (startColor midColor endColor : String) :
    Except Unit String :=
  let start := hexToRgb startColor
  let mid := hexToRgb midColor
  let endC := hexToRgb endColor
  if value ≤ 1/2 then
    match start, mid with
    | some s, some m =>
      let t := value * 2
      let r := Int.floor (lerp (s.r : ℚ) (m.r : ℚ) t)
      let g := Int.floor (lerp (s.g : ℚ) (m.g : ℚ) t)
      let b := Int.floor (lerp (s.b : ℚ) (m.b : ℚ) t)
      Except.ok ("rgb(" ++ Int.repr r ++ "," ++ Int.repr g ++ "," ++
                 Int.repr b ++ ")")
    | _, _ => Except.error ()
  else
    match mid, endC with
    | some m, some e =>
      let t := (value - 1/2) * 2
      let r := Int.floor (lerp (m.r : ℚ) (e.r : ℚ) t)
      let g := Int.floor (lerp (m.g : ℚ) (e.g : ℚ) t)
      let b := Int.floor (lerp (m.b : ℚ) (e.b : ℚ) t)
      Except.ok ("rgb(" ++ Int.repr r ++ "," ++ Int.repr g ++ "," ++
                 Int.repr b ++ ")")
    | _, _ => Except.error ()

/-- The `rgb(r,g,b)` string built by `mapToColor` for an exact channel
triple (no interpolation residue). -/
def rgbOf (c : Rgb) : String :=
  "rgb(" ++ Nat.repr c.r ++ "," ++ Nat.repr c.g ++ "," ++ Nat.repr c.b ++ ")"

example : hexToRgb "#aabbcc" = some ⟨170, 187, 204⟩ := by decide
example : hexToRgb "AaBbCc" = some ⟨170, 187, 204⟩ := by decide
example : hexToRgb "xyzxyz" = none := by decide
example : hexToRgb "#aabbc" = none := by decide
example : rgbToHex ⟨170, 187, 204⟩ = "aabbcc" := by decide
example : mapToColor 0 "#102030" "#405060" "#708090" =
    Except.ok "rgb(16,32,48)" := by decide
example : mapToColor (1/2) "#102030" "#405060" "#708090" =
    Except.ok "rgb(64,80,96)" := by decide
example : mapToColor 1 "#102030" "#405060" "#708090" =
    Except.ok "rgb(112,128,144)" := by decide
example : mapToColor 0 "xyz" "#808080" "#808080" = Except.error () := by decide

/-- A prefix test on character lists (the anchor-free part of matching a
string pattern, as `String.prototype.replace` with a plain-string pattern
uses). -/
def startsWith : List Char → List Char → Bool
  | [], _ => true
  | _ :: _, [] => false
  | p :: ps, c :: cs => p = c && startsWith ps cs

/-- JavaScript `String.prototype.replace` with a plain-string pattern:
replaces the first occurrence only. -/
def replaceFirst (pat rep : List Char) : List Char → List Char
  | [] => []
  | c :: cs =>
    if startsWith pat (c :: cs) then rep ++ (c :: cs).drop pat.length
    else c :: replaceFirst pat rep cs

/-- The `rgba` reformatting of `getGradientColor` (App.jsx line 102):
`color.replace('rgb', 'rgba').replace(')', ', 0.5)')`. -/
def rgbaOf (color : String) : String :=
  String.mk (replaceFirst (')').toString.data ", 0.5)".data
    (replaceFirst "rgb".data "rgba".data color.data))

example : rgbaOf "rgb(16,32,48)" = "rgba(16,32,48, 0.5)" := by decide

/-- The parameter fields read by the gradient pipeline (the `params` state
object of App.jsx; the remaining fields are irrelevant to the gradient cache
and are modelled separately for the control surface, see
`handleParamChange`). -/
structure Params where
  startColor : String
  midColor : String
  endColor : String
  verticalBias : ℚ
deriving DecidableEq

/-- The composite cache key
`` `${y}-${stripPosition}-${startColor}-${midColor}-${endColor}-${verticalBias}` ``
of `getGradientColor` (App.jsx line 92), modelled as the tuple of its six
components (the string concatenation is injective on the values that occur:
numbers and `#rrggbb` color strings, none containing `-`). -/
structure GKey where
  y : ℚ
  stripPosition : ℚ
  startColor : String
  midColor : String
  endColor : String
  verticalBias : ℚ
deriving DecidableEq

/-- The gradient cache `gradientCacheRef.current` (App.jsx line 36): a
JavaScript object mapping keys to RGBA strings, modelled as a partial map. -/
def Cache : Type := GKey → Option String

/-- The key built by `getGradientColor` for a lookup. -/
def mkKey (p : Params) (y stripPosition : ℚ) : GKey :=
  ⟨y, stripPosition, p.startColor, p.midColor, p.endColor, p.verticalBias⟩

/-- The cache-miss computation of `getGradientColor` (App.jsx lines 98-102):
`biasedValue = lerp(y, stripPosition, verticalBias)`, clamped to `[0,1]` by
`Math.max(0, Math.min(1, _))`, mapped through `mapToColor`, reformatted as
an `rgba(...)` string with alpha `0.5`. -/
def computeGradientColor (p : Params) (y stripPosition : ℚ) :
    Except Unit String :=
  let baseValue := y
  let biasedValue := lerp baseValue stripPosition p.verticalBias
  let value := max 0 (min 1 biasedValue)
  match mapToColor value p.startColor p.midColor p.endColor with
  | Except.error e => Except.error e
  | Except.ok color => Except.ok (rgbaOf color)

/-- `getGradientColor` (App.jsx lines 91-106).  `if (cache[key])` is the
JavaScript truthiness test: an absent key (`undefined`) and an empty string
are both falsy.  On a miss the computed RGBA string is stored
(`cache[key] = rgbaColor`) and returned. -/
def getGradientColor (p : Params) (cache : Cache) (y stripPosition : ℚ) :
    Except Unit (String × Cache) :=
  let key := mkKey p y stripPosition
  let miss : Except Unit (String × Cache) :=
    match computeGradientColor p y stripPosition with
    | Except.error e => Except.error e
    | Except.ok rgbaColor =>
      Except.ok (rgbaColor, fun k => if k = key then some rgbaColor else cache k)
  match cache key with
  | some c => if c = "" then miss else Except.ok (c, cache)
  | none => miss

/-- The cache-clearing condition of the render `useEffect` (App.jsx lines
112-114): `if (params.startColor || params.midColor || params.endColor ||
params.verticalBias)` — JavaScript truthiness of the three color strings
(falsy only when empty) and of the bias number (falsy only at `0`, or `NaN`,
which cannot arise from the slider). -/
def clearCond (p : Params) : Bool :=
  p.startColor ≠ "" || p.midColor ≠ "" || p.endColor ≠ "" ||
  p.verticalBias ≠ 0

/-- The state of the gradient cache right after the clearing step at the top
of a render pass (App.jsx lines 112-114): reset to `{}` when `clearCond`
holds, kept otherwise. -/
def renderPassCache (p : Params) (cache : Cache) : Cache :=
  if clearCond p then (fun _ => none) else cache

/-- A concrete parameter snapshot used by witnesses. -/
def sampleParams : Params := ⟨"#102030", "#405060", "#708090", 7/10⟩

/-- The empty gradient cache `{}`. -/
def emptyCache : Cache := fun _ => none

/-- `handleParamChange` (App.jsx lines 39-51): the parameter object is
replaced by `{ ...prev, [name]: value }` — the spread retains every field,
then the computed key overrides the one named field.  The JavaScript object
is modelled as a map from field names to (string) values; the
`requestAnimationFrame` coalescing only delays when this replacement is
applied, not what it computes. -/
def handleParamChange (prev : String → String) (name value : String) :
    String → String :=
  fun k => if k = name then value else prev k

/-- A JavaScript number: finite (exact value), `NaN`, or a signed
infinity.  Needed where the code can divide by zero. -/
inductive JsNum where
  | num : ℚ → JsNum
  | nan : JsNum
  | posInf : JsNum
  | negInf : JsNum
deriving DecidableEq

/-- JavaScript division of finite numbers: `0/0` is `NaN`, `±a/0` is a
signed infinity, otherwise exact (the IEEE rounding of a finite quotient is
immaterial to the claims about it). -/
def jsDiv (a b : ℚ) : JsNum :=
  if b = 0 then
    if a = 0 then JsNum.nan else if 0 < a then JsNum.posInf else JsNum.negInf
  else JsNum.num (a / b)

/-- `stripPosition` (App.jsx line 130): `i / (params.strips - 1)` with no
special case for `strips = 1`. -/
def stripPosition (strips i : ℚ) : JsNum := jsDiv i (strips - 1)

example : stripPosition 1 0 = JsNum.nan := by decide
example : stripPosition 3 1 = JsNum.num (1/2) := by decide

/-- The clamp `Math.max(0, Math.min(255, _))` of the noise loop (App.jsx
lines 170-172). -/
def clamp255 (q : ℚ) : ℚ := max 0 (min 255 q)

/-- Round to the nearest integer, ties to even: the conversion a
`Uint8ClampedArray` store performs on its (already clamped) value, and also
the rounding step of IEEE-754 round-to-nearest-even. -/
def roundHalfEven (q : ℚ) : ℤ :=
  let f := Int.floor q
  if q - f < 1/2 then f
  else if 1/2 < q - f then f + 1
  else if f % 2 = 0 then f else f + 1

/-- One noise sample of the noise loop (App.jsx line 168):
`(Math.random() - 0.5) * noiseScale * 3`, with `r` the `Math.random()`
draw. -/
def noiseSample (noiseScale r : ℚ) : ℚ := (r - 1/2) * noiseScale * 3

/-- A store `data[j] = v` into the pixel buffer: out-of-bounds stores into a
typed array are ignored in JavaScript. -/
def writeByte (size : ℕ) (d : ℕ → ℚ) (j : ℕ) (v : ℚ) : ℕ → ℚ :=
  if j < size then fun k => if k = j then v else d k else d

/-- One iteration body of the noise loop (App.jsx lines 168-172): draw one
`Math.random()` sample (the stream `rand` indexed by the iteration number
`i / 16`), then `data[i] = Math.max(0, Math.min(255, data[i] + noise))` and
likewise for `i+1` and `i+2` — each store passing through the
`Uint8ClampedArray` byte conversion. -/
def noiseWrite (noiseScale : ℚ) (rand : ℕ → ℚ) (size i : ℕ)
    (d : ℕ → ℚ) : ℕ → ℚ :=
  let noise := noiseSample noiseScale (rand (i / 16))
  let d0 := writeByte size d i ((roundHalfEven (clamp255 (d i + noise)) : ℤ) : ℚ)
  let d1 := writeByte size d0 (i+1) ((roundHalfEven (clamp255 (d0 (i+1) + noise)) : ℤ) : ℚ)
  writeByte size d1 (i+2) ((roundHalfEven (clamp255 (d1 (i+2) + noise)) : ℤ) : ℚ)

/-- The noise loop (App.jsx lines 167-173): `for (let i = 0; i <
data.length; i += 16)`, each iteration performing `noiseWrite`. -/
def noiseLoop (noiseScale : ℚ) (rand : ℕ → ℚ) (size : ℕ) (i : ℕ)
    (d : ℕ → ℚ) : ℕ → ℚ :=
  if h : i < size then
    noiseLoop noiseScale rand size (i + 16)
      (noiseWrite noiseScale rand size i d)
  else d
termination_by size - i
decreasing_by simp_wf; omega

/-- The noise stage of the render `useEffect` (App.jsx lines 163-175): the
pixel buffer is read, perturbed and written back only under
`if (params.noiseScale > 0)`; otherwise the raster is untouched.  (The
subsequent `blur` redraw, lines 176-178, is a call into the canvas's filter
primitive, not pixel arithmetic of this code; it too is skipped when
`noiseScale` is `0`.) -/
def noiseStage (noiseScale : ℚ) (rand : ℕ → ℚ) (size : ℕ)
    (d : ℕ → ℚ) : ℕ → ℚ :=
  if 0 < noiseScale then noiseLoop noiseScale rand size 0 d else d

/-- Number of binary digits of `n` (one digit for `0`). -/
def bitLen (n : ℕ) : ℕ := (Nat.toDigits 2 n).length

/-- `2 ^ e` over `ℚ` for an integer exponent, by cases (kept executable by
kernel reduction). -/
def pow2 (e : ℤ) : ℚ :=
  match e with
  | Int.ofNat n => Rat.divInt (Int.ofNat (2 ^ n)) 1
  | Int.negSucc n => Rat.divInt 1 (Int.ofNat (2 ^ (n + 1)))

/-- `⌊log₂ q⌋` for a positive rational, via the bit lengths of numerator and
denominator. -/
def floorLog2 (q : ℚ) : ℤ :=
  let e0 : ℤ := (bitLen q.num.toNat : ℤ) - (bitLen q.den : ℤ)
  if pow2 e0 ≤ q then e0 else e0 - 1

/-- Round a rational to the nearest IEEE-754 binary64 value
(round-to-nearest, ties-to-even, 53-bit significand; overflow and subnormal
range do not arise for the values of this program). -/
def fpRound (q : ℚ) : ℚ :=
  if q = 0 then 0
  else
    let m := |q|
    let e := floorLog2 m
    let s : ℚ := if q < 0 then -1 else 1
    s * (roundHalfEven (m * pow2 (52 - e)) : ℤ) * pow2 (e - 52)

/-- IEEE-754 binary64 addition: the exact sum, rounded. -/
def fpAdd (a b : ℚ) : ℚ := fpRound (a + b)

/-- The binary64 value of the JavaScript literal `0.2`. -/
def fp02 : ℚ := fpRound (1/5)

/-- The gradient-stop loop `for (let y = 0; y <= 1; y += 0.2)` (App.jsx
lines 154-157), in exact binary64 arithmetic, returning the sequence of `y`
values at which `getGradientColor` is sampled.  The loop is structurally
bounded by a fuel argument; any fuel of at least 6 yields the full
sequence (the theorems below are fuel-independent in this sense). -/
def gradientStops : ℕ → ℚ → List ℚ
  | 0, _ => []
  | fuel + 1, y =>
    if y ≤ 1 then y :: gradientStops fuel (fpAdd y fp02) else []

example : fp02 = 7205759403792794 / 2 ^ 55 := by decide
example : fpAdd fp02 fp02 = 7205759403792794 / 2 ^ 54 := by decide
example : fpAdd (7205759403792794 / 2 ^ 54) fp02 =
    5404319552844596 / 2 ^ 53 := by decide
example : fpAdd (5404319552844596 / 2 ^ 53) fp02 =
    7205759403792794 / 2 ^ 53 := by decide
example : fpAdd (7205759403792794 / 2 ^ 53) fp02 = 1 := by decide
example : gradientStops 6 0 =
    [0, 7205759403792794 / 2 ^ 55, 7205759403792794 / 2 ^ 54,
     5404319552844596 / 2 ^ 53, 7205759403792794 / 2 ^ 53, 1] := by decide

theorem lerp_zero (a b : ℚ) : lerp a b 0 = a := by simp [lerp]

theorem lerp_one (a b : ℚ) : lerp a b 1 = b := by simp [lerp]

theorem int_repr_natCast (n : ℕ) : Int.repr (n : ℤ) = Nat.repr n := rfl

theorem floor_lerp_zero (a b : ℕ) :
    Int.floor (lerp (a : ℚ) (b : ℚ) (0 * 2)) = (a : ℤ) := by
  norm_num [lerp]

theorem floor_lerp_one_left (a b : ℕ) :
    Int.floor (lerp (a : ℚ) (b : ℚ) (1/2 * 2)) = (b : ℤ) := by
  norm_num [lerp]

theorem floor_lerp_one_right (a b : ℕ) :
    Int.floor (lerp (a : ℚ) (b : ℚ) ((1 - 1/2) * 2)) = (b : ℤ) := by
  norm_num [lerp]

/-- C1: for valid colors, `mapToColor 0` is the start color, `mapToColor 1`
the end color, and `mapToColor 0.5` — routed through the first
(start-to-mid) branch because `0.5 <= 0.5`, with `t = 0.5 * 2 = 1` — is
exactly the mid color; each channel is floored after interpolation, which
at these three inputs returns the parsed channel unchanged. -/
theorem map_to_color_endpoints (sc mc ec : String) (s m e : Rgb)
    (hs : hexToRgb sc = some s) (hm : hexToRgb mc = some m)
    (he : hexToRgb ec = some e) :
    mapToColor 0 sc mc ec = Except.ok (rgbOf s) ∧
    mapToColor (1/2) sc mc ec = Except.ok (rgbOf m) ∧
    mapToColor 1 sc mc ec = Except.ok (rgbOf e) := by
  unfold mapToColor
  rw [hs, hm, he]
  refine ⟨?_, ?_, ?_⟩
  · rw [if_pos (by norm_num)]
    dsimp only
    rw [floor_lerp_zero, floor_lerp_zero, floor_lerp_zero]
    rw [int_repr_natCast, int_repr_natCast, int_repr_natCast]
    rfl
  · rw [if_pos (by norm_num)]
    dsimp only
    rw [floor_lerp_one_left, floor_lerp_one_left, floor_lerp_one_left]
    rw [int_repr_natCast, int_repr_natCast, int_repr_natCast]
    rfl
  · rw [if_neg (by norm_num)]
    dsimp only
    rw [floor_lerp_one_right, floor_lerp_one_right, floor_lerp_one_right]
    rw [int_repr_natCast, int_repr_natCast, int_repr_natCast]
    rfl

theorem map_to_color_endpoints_witness :
    hexToRgb "#102030" = some ⟨16, 32, 48⟩ ∧
    mapToColor 0 "#102030" "#405060" "#708090" =
      Except.ok (rgbOf ⟨16, 32, 48⟩) ∧
    mapToColor (1/2) "#102030" "#405060" "#708090" =
      Except.ok (rgbOf ⟨64, 80, 96⟩) ∧
    mapToColor 1 "#102030" "#405060" "#708090" =
      Except.ok (rgbOf ⟨112, 128, 144⟩) :=
  ⟨by decide,
   (map_to_color_endpoints "#102030" "#405060" "#708090"
      ⟨16, 32, 48⟩ ⟨64, 80, 96⟩ ⟨112, 128, 144⟩
      (by decide) (by decide) (by decide)).1,
   (map_to_color_endpoints "#102030" "#405060" "#708090"
      ⟨16, 32, 48⟩ ⟨64, 80, 96⟩ ⟨112, 128, 144⟩
      (by decide) (by decide) (by decide)).2.1,
   (map_to_color_endpoints "#102030" "#405060" "#708090"
      ⟨16, 32, 48⟩ ⟨64, 80, 96⟩ ⟨112, 128, 144⟩
      (by decide) (by decide) (by decide)).2.2⟩

/-- C4 (the code violates the claim): with `stripCount = 1` the single
strip's `stripPosition` is computed as `0 / (1 - 1) = 0 / 0`, which is `NaN`
in JavaScript — not the defined value `0` the specification requires. -/
theorem strip_position_single_strip_nan :
    stripPosition 1 0 = JsNum.nan ∧ stripPosition 1 0 ≠ JsNum.num 0 := by
  decide

/-- C9: the parameter replacement `{ ...prev, [name]: value }` changes
exactly the named field and retains every other field. -/
theorem handle_param_change_updates_only_named (prev : String → String)
    (name value : String) :
    handleParamChange prev name value name = value ∧
    ∀ k, k ≠ name → handleParamChange prev name value k = prev k := by
  refine ⟨by simp [handleParamChange], fun k hk => by simp [handleParamChange, hk]⟩

theorem handle_param_change_witness :
    handleParamChange (fun _ => "0") "strips" "5" "strips" = "5" ∧
    handleParamChange (fun _ => "0") "strips" "5" "noiseScale" = "0" :=
  ⟨(handle_param_change_updates_only_named (fun _ => "0") "strips" "5").1,
   (handle_param_change_updates_only_named (fun _ => "0") "strips" "5").2
     "noiseScale" (by decide)⟩

/-- C10: the cache-clearing `if` tests truthiness, not change; with any
non-empty color string it is true, so the gradient cache is reset to the
empty object on every render pass, whatever the old cache held and whether
or not any parameter changed. -/
theorem cache_cleared_every_render (p : Params) (cache : Cache)
    (h : p.startColor ≠ "") :
    clearCond p = true ∧ renderPassCache p cache = (fun _ => none) := by
  have hc : clearCond p = true := by simp [clearCond, h]
  exact ⟨hc, by simp [renderPassCache, hc]⟩

theorem cache_cleared_every_render_witness :
    clearCond ⟨"#808080", "#708090", "#102030", 7/10⟩ = true ∧
    renderPassCache ⟨"#808080", "#708090", "#102030", 7/10⟩
      (fun _ => some "stale") = (fun _ => none) :=
  cache_cleared_every_render _ _ (by decide)

theorem isHexDigit_mem {c : Char} (h : isHexDigit c = true) :
    c ∈ hexDigitChars := by
  rw [isHexDigit, decide_eq_true_eq] at h
  exact h

/-- C7 (the code violates the second half of the claim): `hexToRgb` does
return `null` exactly on strings not matching the 6-hex-digit pattern, but
`mapToColor` then crashes dereferencing that `null` (here: a malformed start
color with `value <= 0.5`), it does not return a defined failure. -/
theorem hex_failure_crash_cex :
    hexToRgb "xyzxyz" = none ∧
    mapToColor 0 "xyzxyz" "#808080" "#808080" = Except.error () :=
  ⟨by decide, by decide⟩

/-- C7 (amended): `hexToRgb` returns the failure sentinel `none` exactly
when the input does not match an optional `#` followed by 6 hex digits; but
`mapToColor` given such a color does not return a defined null — it throws
(accessing `.r` of `null`) whenever the branch selected by `value` uses a
malformed color: the first branch (`value <= 0.5`) dereferences the start
and mid colors, the second branch dereferences the mid and end colors. -/
theorem hex_parse_failure_behavior :
    (∀ s : String, hexToRgb s = none ↔ specValidHex s = false) ∧
    (∀ (v : ℚ) (sc mc ec : String), v ≤ 1/2 →
      hexToRgb sc = none ∨ hexToRgb mc = none →
      mapToColor v sc mc ec = Except.error ()) ∧
    (∀ (v : ℚ) (sc mc ec : String), ¬ v ≤ 1/2 →
      hexToRgb mc = none ∨ hexToRgb ec = none →
      mapToColor v sc mc ec = Except.error ()) := by
  refine ⟨?_, ?_, ?_⟩
  · intro s
    unfold hexToRgb specValidHex
    rcases dropHash s.data with
      _ | ⟨c1, _ | ⟨c2, _ | ⟨c3, _ | ⟨c4, _ | ⟨c5, _ | ⟨c6, _ | ⟨c7, t⟩⟩⟩⟩⟩⟩⟩ <;>
      simp
  · intro v sc mc ec hv hnone
    unfold mapToColor
    rw [if_pos hv]
    rcases h1 : hexToRgb sc with _ | s <;>
      rcases h2 : hexToRgb mc with _ | m <;> try rfl
    rcases hnone with h | h
    · rw [h1] at h; exact Option.noConfusion h
    · rw [h2] at h; exact Option.noConfusion h
  · intro v sc mc ec hv hnone
    unfold mapToColor
    rw [if_neg hv]
    rcases h1 : hexToRgb mc with _ | m <;>
      rcases h2 : hexToRgb ec with _ | e <;> try rfl
    rcases hnone with h | h
    · rw [h1] at h; exact Option.noConfusion h
    · rw [h2] at h; exact Option.noConfusion h

theorem hex_parse_failure_behavior_witness :
    (hexToRgb "zzz" = none ↔ specValidHex "zzz" = false) ∧
    ((0 : ℚ) ≤ 1/2 ∧ hexToRgb "zzz" = none ∧
      mapToColor 0 "zzz" "#808080" "#102030" = Except.error () ∧
      mapToColor 0 "#808080" "zzz" "#102030" = Except.error ()) ∧
    (¬ (1 : ℚ) ≤ 1/2 ∧
      mapToColor 1 "#808080" "zzz" "#102030" = Except.error () ∧
      mapToColor 1 "#808080" "#102030" "zzz" = Except.error ()) :=
  ⟨hex_parse_failure_behavior.1 "zzz",
   ⟨by norm_num, by decide,
    hex_parse_failure_behavior.2.1 0 "zzz" "#808080" "#102030"
      (by norm_num) (Or.inl (by decide)),
    hex_parse_failure_behavior.2.1 0 "#808080" "zzz" "#102030"
      (by norm_num) (Or.inr (by decide))⟩,
   ⟨by norm_num,
    hex_parse_failure_behavior.2.2 1 "#808080" "zzz" "#102030"
      (by norm_num) (Or.inl (by decide)),
    hex_parse_failure_behavior.2.2 1 "#808080" "#102030" "zzz"
      (by norm_num) (Or.inr (by decide))⟩⟩

/-- C5 (the claim fails as stated): `hexToRgb` accepts an optional leading
`#`, but the channel-to-hex conversion never emits one, so the round trip
on the valid input `#aabbcc` returns `aabbcc`, which differs from the input
even after case normalization. -/
theorem hex_roundtrip_cex :
    (hexToRgb "#aabbcc").map rgbToHex = some "aabbcc" ∧
    lowerStr "#aabbcc" = "#aabbcc" ∧ ("aabbcc" : String) ≠ "#aabbcc" := by
  refine ⟨by decide, by decide, by decide⟩

theorem toHex_pair :
    ∀ c1 ∈ hexDigitChars, ∀ c2 ∈ hexDigitChars,
      toHex (16 * hexVal c1 + hexVal c2) =
        String.mk [lowerChar c1, lowerChar c2] := by decide

/-- C5 (amended): for every string accepted by `hexToRgb`, converting the
parsed triple back with the channel-to-hex conversion yields the case
normalization of the input with any leading `#` removed; in particular the
round trip is the identity (up to case) exactly on inputs without the
optional `#`. -/
theorem hex_roundtrip_amended (s : String) (c : Rgb)
    (h : hexToRgb s = some c) :
    rgbToHex c = String.mk ((dropHash s.data).map lowerChar) := by
  unfold hexToRgb at h
  revert h
  rcases dropHash s.data with
    _ | ⟨c1, _ | ⟨c2, _ | ⟨c3, _ | ⟨c4, _ | ⟨c5, _ | ⟨c6, _ | ⟨c7, t⟩⟩⟩⟩⟩⟩⟩ <;>
    intro h <;> try exact Option.noConfusion h
  have h9 : (if (isHexDigit c1 && isHexDigit c2 && isHexDigit c3 &&
      isHexDigit c4 && isHexDigit c5 && isHexDigit c6) = true then
      some (Rgb.mk (16 * hexVal c1 + hexVal c2) (16 * hexVal c3 + hexVal c4)
        (16 * hexVal c5 + hexVal c6)) else none) = some c := h
  by_cases hc : (isHexDigit c1 && isHexDigit c2 && isHexDigit c3 &&
      isHexDigit c4 && isHexDigit c5 && isHexDigit c6) = true
  · rw [if_pos hc] at h9
    simp only [Bool.and_eq_true] at hc
    obtain ⟨⟨⟨⟨⟨h1, h2⟩, h3⟩, h4⟩, h5⟩, h6⟩ := hc
    injection h9 with h9
    subst h9
    simp only [List.map_cons, List.map_nil]
    show toHex _ ++ toHex _ ++ toHex _ = _
    rw [toHex_pair c1 (isHexDigit_mem h1) c2 (isHexDigit_mem h2),
        toHex_pair c3 (isHexDigit_mem h3) c4 (isHexDigit_mem h4),
        toHex_pair c5 (isHexDigit_mem h5) c6 (isHexDigit_mem h6)]
    rfl
  · rw [if_neg hc] at h9
    exact Option.noConfusion h9

theorem hex_roundtrip_amended_witness :
    hexToRgb "#AaBbCc" = some ⟨170, 187, 204⟩ ∧
    rgbToHex ⟨170, 187, 204⟩ =
      String.mk ((dropHash (String.data "#AaBbCc")).map lowerChar) :=
  ⟨by decide,
   hex_roundtrip_amended "#AaBbCc" ⟨170, 187, 204⟩ (by decide)⟩

theorem replaceFirst_ne_nil {pat rep s : List Char} (hrep : rep ≠ [])
    (hs : s ≠ []) : replaceFirst pat rep s ≠ [] := by
  cases s with
  | nil => exact absurd rfl hs
  | cons c cs =>
    unfold replaceFirst
    by_cases hp : startsWith pat (c :: cs) = true
    · rw [if_pos hp]
      intro hcontra
      exact hrep (List.append_eq_nil.mp hcontra).1
    · rw [if_neg hp]
      simp

theorem rgbaOf_ne_empty (c : String) (h : c.data ≠ []) : rgbaOf c ≠ "" := by
  unfold rgbaOf
  intro hcontra
  have h2 := congrArg String.data hcontra
  exact replaceFirst_ne_nil (by decide)
    (replaceFirst_ne_nil (by decide) h) h2

theorem mapToColor_ok_ne_nil {v : ℚ} {sc mc ec c : String}
    (h : mapToColor v sc mc ec = Except.ok c) : c.data ≠ [] := by
  unfold mapToColor at h
  by_cases hv : v ≤ 1/2
  · rw [if_pos hv] at h
    rcases h1 : hexToRgb sc with _ | s <;> rw [h1] at h <;>
      rcases h2 : hexToRgb mc with _ | m <;> rw [h2] at h <;>
      try exact Except.noConfusion h
    injection h with h
    subst h
    intro hc
    have h3 := congrArg List.length hc
    simp [String.data_append] at h3
  · rw [if_neg hv] at h
    rcases h1 : hexToRgb mc with _ | m <;> rw [h1] at h <;>
      rcases h2 : hexToRgb ec with _ | e <;> rw [h2] at h <;>
      try exact Except.noConfusion h
    injection h with h
    subst h
    intro hc
    have h3 := congrArg List.length hc
    simp [String.data_append] at h3

theorem computeGradientColor_ok_ne_empty {p : Params} {y stripPos : ℚ}
    {c : String} (h : computeGradientColor p y stripPos = Except.ok c) :
    c ≠ "" := by
  unfold computeGradientColor at h
  dsimp only at h
  cases hm : mapToColor (max 0 (min 1 (lerp y stripPos p.verticalBias)))
      p.startColor p.midColor p.endColor with
  | error e => rw [hm] at h; exact Except.noConfusion h
  | ok color =>
    rw [hm] at h
    injection h with h
    subst h
    exact rgbaOf_ne_empty color (mapToColor_ok_ne_nil hm)


/-- C6: on a cache miss, `getGradientColor` computes
`biased = lerp(y, stripPosition, verticalBias)`, clamps it to `[0,1]`,
maps it through the gradient mapper, reformats the result as an
`rgba(r,g,b, 0.5)` string (fixed alpha `0.5`), stores it under the
composite key, and returns it. -/
theorem gradient_miss_computes (p : Params) (cache : Cache)
    (y stripPos : ℚ) (h : cache (mkKey p y stripPos) = none) :
    getGradientColor p cache y stripPos =
      Except.map
        (fun v => (rgbaOf v,
          fun k => if k = mkKey p y stripPos then some (rgbaOf v) else cache k))
        (mapToColor (max 0 (min 1 (lerp y stripPos p.verticalBias)))
          p.startColor p.midColor p.endColor) := by
  unfold getGradientColor computeGradientColor
  dsimp only
  rw [h]
  cases hm : mapToColor (max 0 (min 1 (lerp y stripPos p.verticalBias)))
      p.startColor p.midColor p.endColor with
  | error e => rfl
  | ok v => rfl

theorem gradient_miss_computes_witness :
    emptyCache (mkKey sampleParams 0 0) = none ∧
    getGradientColor sampleParams emptyCache 0 0 =
      Except.map
        (fun v => (rgbaOf v,
          fun k => if k = mkKey sampleParams 0 0 then some (rgbaOf v)
            else emptyCache k))
        (mapToColor (max 0 (min 1 (lerp 0 0 sampleParams.verticalBias)))
          sampleParams.startColor sampleParams.midColor
          sampleParams.endColor) :=
  ⟨rfl, gradient_miss_computes sampleParams emptyCache 0 0 rfl⟩

/-- C2: (1) a repeated call with the identical key returns the identical
result — the second call is served from the state the first call left
behind; (2) at the start of a render pass the cache has been cleared
(`clearCond` holds for any parameter snapshot with non-empty colors, see
`cache_cleared_every_render`), so the first query for any key under the new
parameters is computed fresh from those parameters — a value cached under
old colors is never served. -/
theorem gradient_cache_correct :
    (∀ (p : Params) (cache : Cache) (y stripPos : ℚ) (out : String × Cache),
      getGradientColor p cache y stripPos = Except.ok out →
      getGradientColor p out.2 y stripPos = Except.ok out) ∧
    (∀ (p : Params) (cache : Cache) (y stripPos : ℚ),
      clearCond p = true →
      Except.map Prod.fst
          (getGradientColor p (renderPassCache p cache) y stripPos) =
        computeGradientColor p y stripPos) := by
  constructor
  · intro p cache y stripPos out h
    unfold getGradientColor at h ⊢
    dsimp only at h ⊢
    cases hck : cache (mkKey p y stripPos) with
    | none =>
      rw [hck] at h
      cases hcc : computeGradientColor p y stripPos with
      | error e => rw [hcc] at h; exact Except.noConfusion h
      | ok v =>
        rw [hcc] at h
        injection h with h
        subst h
        have hv : v ≠ "" := computeGradientColor_ok_ne_empty hcc
        show (match (fun k => if k = mkKey p y stripPos then some v
            else cache k) (mkKey p y stripPos) with
          | some c => if c = "" then _ else Except.ok (c, _)
          | none => _) = _
        rw [show (fun k => if k = mkKey p y stripPos then some v
            else cache k) (mkKey p y stripPos) = some v by simp]
        simp [hv]
    | some c =>
      rw [hck] at h
      have h9 : (if c = "" then
          (match computeGradientColor p y stripPos with
           | Except.error e => Except.error e
           | Except.ok rgbaColor => Except.ok (rgbaColor,
               fun k => if k = mkKey p y stripPos then some rgbaColor
                 else cache k))
          else Except.ok (c, cache)) = Except.ok out := h
      by_cases hc : c = ""
      · rw [if_pos hc] at h9
        cases hcc : computeGradientColor p y stripPos with
        | error e => rw [hcc] at h9; exact Except.noConfusion h9
        | ok v =>
          rw [hcc] at h9
          injection h9 with h9
          subst h9
          have hv : v ≠ "" := computeGradientColor_ok_ne_empty hcc
          show (match (fun k => if k = mkKey p y stripPos then some v
              else cache k) (mkKey p y stripPos) with
            | some c => if c = "" then _ else Except.ok (c, _)
            | none => _) = _
          rw [show (fun k => if k = mkKey p y stripPos then some v
              else cache k) (mkKey p y stripPos) = some v by simp]
          simp [hv]
      · rw [if_neg hc] at h9
        injection h9 with h9
        subst h9
        show (match cache (mkKey p y stripPos) with
          | some c => if c = "" then _ else Except.ok (c, _)
          | none => _) = _
        rw [hck]
        simp [hc]
  · intro p cache y stripPos hclear
    have hcache : renderPassCache p cache = (fun _ => none) := by
      simp [renderPassCache, hclear]
    rw [hcache]
    unfold getGradientColor
    dsimp only
    cases hcc : computeGradientColor p y stripPos with
    | error e => rfl
    | ok v => rfl

theorem gradient_cache_correct_witness :
    (getGradientColor sampleParams (fun _ => some "rgba(1,2,3, 0.5)") 0 0 =
      Except.ok ("rgba(1,2,3, 0.5)", fun _ => some "rgba(1,2,3, 0.5)") ∧
     getGradientColor sampleParams (fun _ => some "rgba(1,2,3, 0.5)") 0 0 =
      Except.ok ("rgba(1,2,3, 0.5)", fun _ => some "rgba(1,2,3, 0.5)")) ∧
    (clearCond sampleParams = true ∧
     Except.map Prod.fst
        (getGradientColor sampleParams
          (renderPassCache sampleParams (fun _ => some "rgba(1,2,3, 0.5)"))
          0 0) =
      computeGradientColor sampleParams 0 0) :=
  ⟨⟨rfl,
    gradient_cache_correct.1 sampleParams (fun _ => some "rgba(1,2,3, 0.5)")
      0 0 ("rgba(1,2,3, 0.5)", fun _ => some "rgba(1,2,3, 0.5)") rfl⟩,
   ⟨by decide,
    gradient_cache_correct.2 sampleParams (fun _ => some "rgba(1,2,3, 0.5)")
      0 0 (by decide)⟩⟩

theorem writeByte_apply (size : ℕ) (d : ℕ → ℚ) (j : ℕ) (v : ℚ) (k : ℕ) :
    writeByte size d j v k = if j < size ∧ k = j then v else d k := by
  unfold writeByte
  by_cases hj : j < size
  · rw [if_pos hj]
    by_cases hk : k = j
    · subst hk; simp [hj]
    · simp [hj, hk]
  · rw [if_neg hj]
    simp [hj]

theorem noiseWrite_apply (noiseScale : ℚ) (rand : ℕ → ℚ) (size i : ℕ)
    (d : ℕ → ℚ) (k : ℕ) :
    noiseWrite noiseScale rand size i d k =
      if k < size ∧ (k = i ∨ k = i + 1 ∨ k = i + 2)
      then ((roundHalfEven (clamp255 (d k +
        noiseSample noiseScale (rand (i / 16)))) : ℤ) : ℚ)
      else d k := by
  unfold noiseWrite
  simp only [writeByte_apply]
  split_ifs <;> simp_all <;> omega

theorem noiseLoop_spec (noiseScale : ℚ) (rand : ℕ → ℚ) (size : ℕ) :
    ∀ (fuel i : ℕ) (d : ℕ → ℚ), size ≤ i + fuel → i % 16 = 0 →
    ∀ j, noiseLoop noiseScale rand size i d j =
      if i ≤ j ∧ j < size ∧ j % 16 < 3
      then ((roundHalfEven (clamp255 (d j +
        noiseSample noiseScale (rand (j / 16)))) : ℤ) : ℚ)
      else d j := by
  intro fuel
  induction fuel with
  | zero =>
    intro i d hfuel hi j
    rw [noiseLoop, dif_neg (by omega), if_neg (by omega)]
  | succ n ih =>
    intro i d hfuel hi j
    rw [noiseLoop]
    by_cases hisize : i < size
    · rw [dif_pos hisize]
      rw [ih (i + 16) (noiseWrite noiseScale rand size i d)
        (by omega) (by omega) j]
      simp only [noiseWrite_apply]
      split_ifs <;> try rfl
      all_goals try omega
      all_goals
        have hq : i / 16 = j / 16 := by omega
      all_goals rw [hq]
    · rw [dif_neg hisize, if_neg (by omega)]

/-- C3: the noise stage (a) leaves the raster pixel-identical when
`noiseScale = 0` (the whole stage, blur included, is guarded by
`noiseScale > 0`); (b) leaves every channel outside the stride — every
index with `j % 16 >= 3`, hence in particular every alpha channel
(`j % 4 = 3`) — untouched for any `noiseScale`; (c) for `noiseScale > 0`
adds to each processed channel `j` (those with `j % 16 < 3`) the single
per-pixel noise sample `(rand - 0.5) * noiseScale * 3` drawn for that
pixel's iteration `j / 16` — the same sample for the pixel's R, G and B —
clamped to `[0,255]` (and byte-converted by the `Uint8ClampedArray`
store). -/
theorem noise_post_processing (noiseScale : ℚ) (rand : ℕ → ℚ) (size : ℕ)
    (d : ℕ → ℚ) :
    (noiseScale = 0 → noiseStage noiseScale rand size d = d) ∧
    (∀ j, 3 ≤ j % 16 ∨ size ≤ j → noiseStage noiseScale rand size d j = d j) ∧
    (∀ j, j % 4 = 3 → noiseStage noiseScale rand size d j = d j) ∧
    (0 < noiseScale → ∀ j, j < size → j % 16 < 3 →
      noiseStage noiseScale rand size d j =
        ((roundHalfEven (clamp255 (d j +
          noiseSample noiseScale (rand (j / 16)))) : ℤ) : ℚ)) := by
  have hloop := noiseLoop_spec noiseScale rand size size 0 d
    (by omega) (by omega)
  refine ⟨?_, ?_, ?_, ?_⟩
  · intro h0
    unfold noiseStage
    rw [if_neg (by simp [h0])]
  · intro j hj
    unfold noiseStage
    by_cases hpos : 0 < noiseScale
    · rw [if_pos hpos, hloop j, if_neg (by omega)]
    · rw [if_neg hpos]
  · intro j hj
    unfold noiseStage
    by_cases hpos : 0 < noiseScale
    · rw [if_pos hpos, hloop j, if_neg (by omega)]
    · rw [if_neg hpos]
  · intro hpos j hjs hj16
    unfold noiseStage
    rw [if_pos hpos, hloop j, if_pos (by omega)]

theorem noise_post_processing_witness :
    noiseStage 0 (fun _ => 1) 4 (fun _ => 10) = (fun _ => 10) ∧
    noiseStage 1 (fun _ => 1) 4 (fun _ => 10) 3 = 10 ∧
    noiseStage 1 (fun _ => 1) 4 (fun _ => 10) 0 =
      ((roundHalfEven (clamp255 (10 + noiseSample 1 1)) : ℤ) : ℚ) :=
  ⟨(noise_post_processing 0 (fun _ => 1) 4 (fun _ => 10)).1 rfl,
   (noise_post_processing 1 (fun _ => 1) 4 (fun _ => 10)).2.2.1 3 (by omega),
   (noise_post_processing 1 (fun _ => 1) 4 (fun _ => 10)).2.2.2
     (by decide) 0 (by omega) (by omega)⟩


/-- C8 (the claim fails as stated): the stop loop's fourth position is not
0.6 — by the third iteration the accumulated value `0.2 + 0.2 + 0.2` has
rounded up to `0.6000000000000001` (one ulp above the binary64 value of the
literal `0.6`, `fpRound (3/5)`), so neither the real number `3/5` nor the
double `0.6` occurs among the stops. -/
theorem gradient_stops_cex :
    gradientStops 6 0 ≠
      [0, fpRound (1/5), fpRound (2/5), fpRound (3/5), fpRound (4/5), 1] ∧
    ¬ ((3:ℚ)/5) ∈ gradientStops 6 0 ∧
    (gradientStops 6 0).get? 3 = some (5404319552844596 / 9007199254740992) ∧
    fpRound (3/5) = 5404319552844595 / 9007199254740992 := by
  refine ⟨by decide, by decide, by decide, by decide⟩

/-- C8 (amended): for any loop bound of at least 6 iterations (the loop
itself runs until `y > 1`), the stop loop `for (y = 0; y <= 1; y += 0.2)`
in binary64 arithmetic produces exactly 6 stops, the binary64 values
`[0, 0.2, 0.4, 0.6000000000000001, 0.8, 1]` — the fourth stop is one ulp
above the double of 0.6, and the last stop is exactly `y = 1.0` (because
`0.8 + 0.2` rounds to exactly `1`), so the gradient does include the final
stop at 1. -/
theorem gradient_stops_amended :
    ∀ n : ℕ, gradientStops (n + 6) 0 =
      [0, 7205759403792794 / 36028797018963968,
       7205759403792794 / 18014398509481984,
       5404319552844596 / 9007199254740992,
       7205759403792794 / 9007199254740992, 1] ∧
      (gradientStops (n + 6) 0).length = 6 ∧
      (gradientStops (n + 6) 0).getLast? = some 1 := by
  have e1 : fpAdd 0 fp02 = 7205759403792794 / 36028797018963968 := by decide
  have e2 : fpAdd (7205759403792794 / 36028797018963968) fp02 =
      7205759403792794 / 18014398509481984 := by decide
  have e3 : fpAdd (7205759403792794 / 18014398509481984) fp02 =
      5404319552844596 / 9007199254740992 := by decide
  have e4 : fpAdd (5404319552844596 / 9007199254740992) fp02 =
      7205759403792794 / 9007199254740992 := by decide
  have e5 : fpAdd (7205759403792794 / 9007199254740992) fp02 = 1 := by decide
  have e6 : fpAdd 1 fp02 = 5404319552844595 / 4503599627370496 := by decide
  have hstop : ∀ (k : ℕ) (y : ℚ), ¬ y ≤ 1 → gradientStops k y = [] := by
    intro k y hy
    cases k with
    | zero => rw [gradientStops]
    | succ k2 => rw [gradientStops, if_neg hy]
  intro n
  have hlist : gradientStops (n + 6) 0 =
      [0, 7205759403792794 / 36028797018963968,
       7205759403792794 / 18014398509481984,
       5404319552844596 / 9007199254740992,
       7205759403792794 / 9007199254740992, 1] := by
    rw [gradientStops, if_pos (by norm_num), e1]
    rw [gradientStops, if_pos (by decide), e2]
    rw [gradientStops, if_pos (by decide), e3]
    rw [gradientStops, if_pos (by decide), e4]
    rw [gradientStops, if_pos (by decide), e5]
    rw [gradientStops, if_pos (by decide), e6]
    rw [hstop n _ (by decide)]
  exact ⟨hlist, by rw [hlist]; rfl, by rw [hlist]; rfl⟩
